import Mathlib

/-!
Verification of the Terraform plan summarizer
(`summarize_plan.py` of the aws-serverless-data-platform repository).

The Python script parses a Terraform plan, tallies resource changes by
action tuple, by derived AWS service name and by module address, and
renders the aggregate in text, markdown or json form.  This file is a
shallow embedding of that script:

* a Python `Counter` built by repeated `c[k] += 1` over a sequence is
  represented by the underlying list of keys; the count of `k` is
  `pyCount k` and the dict ordering of its keys (first-insertion
  order) is `firstKeys`;
* Python `str.split(sep)` for a one-character separator is `pySplit`
  (every occurrence splits, empty chunks are kept, the result is never
  empty); `sep.join(xs)` is `pyJoin`;
* Python `str.replace(pat, "")` for the two-character glyph patterns
  used by the script is `removeAll`;
* Python `sorted` / `Counter.most_common` are stable sorts and are
  embedded as `List.insertionSort` with the corresponding total
  preorder (Mathlib's `insertionSort` is the same stable algorithm);
* `json.dumps` raises `TypeError` on a dict whose key is not
  str/int/float/bool/None; the only candidate non-string keys in the
  script's result object are the keys of `result["summary"]`, so
  serializability is the predicate `result_serializable`.
-/

/-- One entry of `data["resource_changes"]`: the script reads
`resource_change["type"]`, `resource_change.get("module_address", "root")`
and `tuple(resource_change["change"]["actions"])`.  A structurally valid
plan is a list of such records. -/
structure ResourceChange where
  type : String
  module_address : Option String
  actions : List String
deriving DecidableEq

/-- Python `s.split(c)` on the character list of `s`: split at every
occurrence of `c`, keeping empty chunks; the result always has at least
one chunk. -/
def splitOnChar (c : Char) : List Char → List (List Char)
  | [] => [[]]
  | x :: xs =>
    match splitOnChar c xs with
    | [] => [[]]
    | h :: t => if x = c then [] :: h :: t else (x :: h) :: t

/-- Python `s.split(c)` for a one-character separator `c`. -/
def pySplit (c : Char) (s : String) : List String :=
  (splitOnChar c s.toList).map (fun l => String.mk l)

/-- Python `sep.join(xs)`. -/
def pyJoin (sep : String) : List String → String
  | [] => ""
  | [x] => x
  | x :: y :: xs => x ++ sep ++ pyJoin sep (y :: xs)

/-- The distinct elements of `l` in order of first occurrence: the key
order of a Python dict / `Counter` filled by iterating over `l`. -/
def firstKeys {α : Type} [DecidableEq α] : List α → List α
  | [] => []
  | a :: l => a :: (firstKeys l).filter (fun b => b ≠ a)

/-- The count a Python `Counter` reports for key `a` after being fed
the elements of `l`: the number of occurrences of `a` in `l`. -/
def pyCount {α : Type} [DecidableEq α] (a : α) (l : List α) : Nat :=
  (l.filter (fun b => b = a)).length

/-- Python `d[k] = v` on a dict represented as an association list in
insertion order: an existing key keeps its position and gets the new
value, a new key is appended. -/
def pyDictSet {κ ν : Type} [DecidableEq κ] (d : List (κ × ν)) (k : κ) (v : ν) :
    List (κ × ν) :=
  if d.any (fun e => e.1 = k) then
    d.map (fun e => if e.1 = k then (k, v) else e)
  else d ++ [(k, v)]

/-- The `service_mappings` dict of `extract_service_name`, verbatim. -/
def service_mappings : List (String × String) :=
  [("instance", "ec2"),
   ("vpc", "vpc"),
   ("subnet", "vpc"),
   ("internet_gateway", "vpc"),
   ("nat_gateway", "vpc"),
   ("route_table", "vpc"),
   ("security_group", "ec2"),
   ("s3", "s3"),
   ("iam", "iam"),
   ("lambda", "lambda"),
   ("cloudwatch", "cloudwatch"),
   ("rds", "rds"),
   ("dynamodb", "dynamodb"),
   ("kinesis", "kinesis"),
   ("glue", "glue"),
   ("athena", "athena"),
   ("msk", "msk"),
   ("mwaa", "mwaa"),
   ("step_functions", "stepfunctions"),
   ("kms", "kms"),
   ("secretsmanager", "secretsmanager"),
   ("ssm", "ssm"),
   ("cloudtrail", "cloudtrail"),
   ("config", "config"),
   ("guardduty", "guardduty"),
   ("cloudformation", "cloudformation"),
   ("route53", "route53"),
   ("acm", "acm"),
   ("waf", "waf"),
   ("apigateway", "apigateway"),
   ("cognito", "cognito"),
   ("sns", "sns"),
   ("sqs", "sqs"),
   ("elasticsearch", "elasticsearch"),
   ("opensearch", "opensearch")]

/-- Python `s.startswith(p)`: `p` is a prefix of `s`, by code points. -/
def pyStartsWith (s p : String) : Bool :=
  p.toList.isPrefixOf s.toList

/-- Python `s[n:]`: drop the first `n` code points. -/
def pyDrop (n : Nat) (s : String) : String :=
  String.mk (s.toList.drop n)

/-- `parts[0]` of `parts = resource_type[4:].split("_")`.  A Python
`split` always returns at least one chunk, so the index is total and
`headD` with any default is faithful. -/
def first_token (resource_type : String) : String :=
  (pySplit '_' (pyDrop 4 resource_type)).headD ""

/-- `extract_service_name`: `"other"` for types without the `aws_`
prefix; otherwise the first underscore token of the remainder is looked
up in `service_mappings` (Python `in` + indexing on a dict with distinct
keys is association-list lookup) and returned verbatim when absent. -/
def extract_service_name (resource_type : String) : String :=
  if pyStartsWith resource_type "aws_" = false then "other"
  else (service_mappings.lookup (first_token resource_type)).getD
    (first_token resource_type)

/-- `format_actions`: the `action_map` dict lookup with the
`"❓ " + ", ".join(actions)` fallback.  The dict keys are distinct, so
`dict.get` is this decision chain. -/
def format_actions (actions : List String) : String :=
  if actions = ["create"] then "🟢 create"
  else if actions = ["update"] then "🟡 update"
  else if actions = ["delete"] then "🔴 delete"
  else if actions = ["create", "delete"] then "🔄 replace"
  else if actions = ["delete", "create"] then "🔄 replace"
  else if actions = ["no-op"] then "⚪ no-op"
  else if actions = ["read"] then "📖 read"
  else "❓ " ++ pyJoin ", " actions

/-- The seven keys of `action_map` in `format_actions`. -/
def known_action_keys : List (List String) :=
  [["create"], ["update"], ["delete"], ["create", "delete"],
   ["delete", "create"], ["no-op"], ["read"]]

/-! ### The three tallies built by `parse_plan`

`parse_plan` walks the change list once and increments
`summary[actions]`, `by_service[(actions, service)]` and
`by_module[module_address][actions]`.  Each `Counter` is represented by
the list of keys it was fed, in order. -/

/-- `module_address = resource_change.get("module_address", "root")`. -/
def moduleOf (rc : ResourceChange) : String :=
  rc.module_address.getD "root"

/-- The stream of keys fed to the `summary` counter: one action tuple
per change, in plan order. -/
def actionsList (changes : List ResourceChange) : List (List String) :=
  changes.map (fun rc => rc.actions)

/-- The stream of keys fed to the `by_service` counter: one
`(actions, service)` pair per change, in plan order. -/
def by_service_pairs (changes : List ResourceChange) :
    List (List String × String) :=
  changes.map (fun rc => (rc.actions, extract_service_name rc.type))

/-- The derived service name of each change, in plan order
(`by_service_pairs` with the action component dropped). -/
def serviceList (changes : List ResourceChange) : List String :=
  changes.map (fun rc => extract_service_name rc.type)

/-- The module name of each change, in plan order: the key stream of the
outer `by_module` dict. -/
def moduleList (changes : List ResourceChange) : List String :=
  changes.map (fun rc => moduleOf rc)

/-- The key stream of the inner counter `by_module[m]`: the action
tuples of the changes owned by module `m`, in plan order. -/
def by_module_actions (changes : List ResourceChange) (m : String) :
    List (List String) :=
  (changes.filter (fun rc => moduleOf rc = m)).map (fun rc => rc.actions)

/-- `total = sum(summary.values())` in `print_summary`: the counter's
values are the counts of its distinct keys. -/
def total_changes (changes : List ResourceChange) : Nat :=
  ((firstKeys (actionsList changes)).map
    (fun a => pyCount a (actionsList changes))).sum

/-- `service_totals[service]`, accumulated in the rendering functions by
summing the counts of all `(actions, service)` pairs of that service:
the number of such pairs fed to `by_service`. -/
def service_total (changes : List ResourceChange) (s : String) : Nat :=
  ((by_service_pairs changes).filter (fun p => p.2 = s)).length

/-- `sum(by_module[m].values())`: the number of changes owned by `m`. -/
def module_total (changes : List ResourceChange) (m : String) : Nat :=
  (by_module_actions changes m).length

/-! ### Orderings used by the text and markdown renderers

Python `sorted` and `Counter.most_common` are stable sorts; both are
embedded as `List.insertionSort r` for the matching total preorder `r`
(Mathlib's `insertionSort` places `a` before `b` when `r a b`, keeping
the original order of ties, exactly like Python's stable sort). -/

/-- The comparison of `Counter.most_common`:
`sorted(items, key=itemgetter(1), reverse=True)` orders by count,
largest first, equal counts staying in insertion order. -/
def countGe (x y : List String × Nat) : Prop := y.2 ≤ x.2

instance : DecidableRel countGe :=
  fun x y => inferInstanceAs (Decidable (y.2 ≤ x.2))

instance : IsTotal (List String × Nat) countGe :=
  ⟨fun x y => (Nat.le_total y.2 x.2).elim Or.inl Or.inr⟩

instance : IsTrans (List String × Nat) countGe :=
  ⟨fun _ _ _ h1 h2 => Nat.le_trans h2 h1⟩

/-- Python comparison of `(actions, count)` pairs, as used by
`sorted(service_details[s])` and `sorted(by_module[m].items())`:
lexicographic on the action tuple (Mathlib's lexicographic order on
`List String` matches Python's sequence comparison), then on the count.
-/
def rowRel (x y : List String × Nat) : Prop :=
  x.1 < y.1 ∨ (x.1 = y.1 ∧ x.2 ≤ y.2)

instance : DecidableRel rowRel :=
  fun x y =>
    inferInstanceAs (Decidable (x.1 < y.1 ∨ (x.1 = y.1 ∧ x.2 ≤ y.2)))

instance : IsTotal (List String × Nat) rowRel := by
  constructor
  intro x y
  rcases lt_trichotomy x.1 y.1 with h | h | h
  · exact Or.inl (Or.inl h)
  · rcases Nat.le_total x.2 y.2 with hc | hc
    · exact Or.inl (Or.inr ⟨h, hc⟩)
    · exact Or.inr (Or.inr ⟨h.symm, hc⟩)
  · exact Or.inr (Or.inl h)

instance : IsTrans (List String × Nat) rowRel := by
  constructor
  intro x y z hxy hyz
  rcases hxy with h1 | ⟨e1, c1⟩
  · rcases hyz with h2 | ⟨e2, _⟩
    · exact Or.inl (h1.trans h2)
    · exact Or.inl (e2 ▸ h1)
  · rcases hyz with h2 | ⟨e2, c2⟩
    · exact Or.inl (e1 ▸ h2)
    · exact Or.inr ⟨e1.trans e2, c1.trans c2⟩

/-- The items of a counter whose key stream was `l`: distinct keys in
first-insertion order, each with its count (`Counter.items()`). -/
def counter_items (l : List (List String)) : List (List String × Nat) :=
  (firstKeys l).map (fun k => (k, pyCount k l))

/-- `summary.most_common()` on the summary counter of the plan: the
rows of the overall-changes section in text and markdown modes. -/
def overall_rows (changes : List ResourceChange) :
    List (List String × Nat) :=
  List.insertionSort countGe (counter_items (actionsList changes))

/-- `sorted(service_totals.keys())`: the service keys of the by-service
section, ascending. -/
def text_service_keys (changes : List ResourceChange) : List String :=
  List.insertionSort (· ≤ ·) (firstKeys (serviceList changes))

/-- `sorted(by_module.keys())`: the module keys of the by-module
section, ascending. -/
def module_keys (changes : List ResourceChange) : List String :=
  List.insertionSort (· ≤ ·) (firstKeys (moduleList changes))

/-- `sorted(service_details[s])`: the `(actions, count)` rows listed for
service `s`.  `service_details[s]` collects, in counter order, the pairs
of `by_service.items()` whose service is `s`, with their counts. -/
def service_detail_rows (changes : List ResourceChange) (s : String) :
    List (List String × Nat) :=
  List.insertionSort rowRel
    (((firstKeys (by_service_pairs changes)).filter (fun p => p.2 = s)).map
      (fun p => (p.1, pyCount p (by_service_pairs changes))))

/-- `sorted(by_module[m].items())`: the `(actions, count)` rows listed
for module `m`. -/
def module_detail_rows (changes : List ResourceChange) (m : String) :
    List (List String × Nat) :=
  List.insertionSort rowRel (counter_items (by_module_actions changes m))

/-! ### Markdown label post-processing -/

/-- One step of the glyph-stripping chain of the markdown overall table:
Python `s.replace(p ++ q, "")` for a two-character pattern, removing
every (non-overlapping, left-to-right) occurrence. -/
def removeAll (p q : Char) : List Char → List Char
  | [] => []
  | [x] => [x]
  | x :: y :: xs =>
    if x = p ∧ y = q then removeAll p q xs
    else x :: removeAll p q (y :: xs)

/-- The action cell of the markdown overall-changes table:
`format_actions(actions)` with each of the seven decorated prefixes
(`"🟢 "`, `"🟡 "`, `"🔴 "`, `"🔄 "`, `"⚪ "`, `"📖 "`, `"❓ "`, each two
characters) removed by the chain of `str.replace` calls. -/
def md_overall_label (actions : List String) : String :=
  String.mk
    (removeAll '❓' ' '
      (removeAll '📖' ' '
        (removeAll '⚪' ' '
          (removeAll '🔄' ' '
            (removeAll '🔴' ' '
              (removeAll '🟡' ' '
                (removeAll '🟢' ' ' (format_actions actions).toList)))))))

/-- The label used inside markdown detail cells:
`format_actions(actions).split(' ')[1]`.  Indexing a Python list is
partial (`IndexError`), hence the `Option`. -/
def md_detail_label (actions : List String) : Option String :=
  (pySplit ' ' (format_actions actions)).get? 1

/-- The `Details` cell of a markdown by-service or by-module table row:
`", ".join(f"LABEL: COUNT" for ...)` over the sorted rows.  The label
lookup cannot actually fail (every `format_actions` result contains a
space), so the default never shows. -/
def md_detail_cell (rows : List (List String × Nat)) : String :=
  pyJoin ", "
    (rows.map (fun r => (md_detail_label r.1).getD "" ++ ": " ++ toString r.2))

/-! ### The text renderer, as the list of printed lines -/

/-- The fixed `"=" * 60` banner of the text report. -/
def bannerLine : String :=
  String.mk (List.replicate 60 '=')

/-- The BY SERVICE section of the text report. -/
def text_service_section (changes : List ResourceChange) : List String :=
  ["🔧 BY SERVICE:"] ++
  ((text_service_keys changes).map (fun s =>
    ("  " ++ s.toUpper ++ ": " ++ toString (service_total changes s) ++ " total") ::
    (service_detail_rows changes s).map (fun r =>
      "    └─ " ++ format_actions r.1 ++ ": " ++ toString r.2))).flatten ++
  [""]

/-- The BY MODULE section of the text report.  The source computes
`module_display = module_name if module_name != "root" else "root"`,
which is the identity, so the key itself is printed. -/
def text_module_section (changes : List ResourceChange) : List String :=
  ["📦 BY MODULE:"] ++
  ((module_keys changes).map (fun m =>
    ("  " ++ m ++ ": " ++ toString (module_total changes m) ++ " total") ::
    (module_detail_rows changes m).map (fun r =>
      "    └─ " ++ format_actions r.1 ++ ": " ++ toString r.2))).flatten ++
  [""]

/-- `print_text_summary`, as the list of lines it prints. -/
def print_text_summary (changes : List ResourceChange)
    (show_details : Bool) : List String :=
  let total := total_changes changes
  [bannerLine, "TERRAFORM PLAN SUMMARY", bannerLine,
   "Total changes: " ++ toString total ++ " resources", ""] ++
  if total = 0 then ["✅ No changes detected!"]
  else
    ["📋 OVERALL CHANGES:"] ++
    (overall_rows changes).map (fun r =>
      "  " ++ format_actions r.1 ++ ": " ++ toString r.2 ++ " resources") ++
    [""] ++
    (if show_details = true ∧ by_service_pairs changes ≠ [] then
      text_service_section changes
    else []) ++
    (if show_details = true ∧ moduleList changes ≠ [] then
      text_module_section changes
    else [])

/-! ### The markdown renderer, as the list of printed lines -/

/-- The By Service section of the markdown report. -/
def md_service_section (changes : List ResourceChange) : List String :=
  ["## 🔧 By Service", "", "| Service | Total | Details |",
   "|---------|-------|---------|"] ++
  (text_service_keys changes).map (fun s =>
    "| " ++ s.toUpper ++ " | " ++ toString (service_total changes s) ++
      " | " ++ md_detail_cell (service_detail_rows changes s) ++ " |") ++
  [""]

/-- The By Module section of the markdown report. -/
def md_module_section (changes : List ResourceChange) : List String :=
  ["## 📦 By Module", "", "| Module | Total | Details |",
   "|--------|-------|---------|"] ++
  (module_keys changes).map (fun m =>
    "| " ++ m ++ " | " ++ toString (module_total changes m) ++
      " | " ++ md_detail_cell (module_detail_rows changes m) ++ " |") ++
  [""]

/-- `print_markdown_summary`, as the list of lines it prints. -/
def print_markdown_summary (changes : List ResourceChange)
    (show_details : Bool) : List String :=
  let total := total_changes changes
  ["# Terraform Plan Summary", "",
   "**Total changes:** " ++ toString total ++ " resources", ""] ++
  if total = 0 then ["✅ **No changes detected!**"]
  else
    ["## 📋 Overall Changes", "", "| Action | Count |", "|--------|-------|"] ++
    (overall_rows changes).map (fun r =>
      "| " ++ md_overall_label r.1 ++ " | " ++ toString r.2 ++ " |") ++
    [""] ++
    (if show_details = true ∧ by_service_pairs changes ≠ [] then
      md_service_section changes
    else []) ++
    (if show_details = true ∧ moduleList changes ≠ [] then
      md_module_section changes
    else [])

/-! ### The JSON renderer

`print_json_summary` builds a nested Python object and hands it to
`json.dumps`.  Only the keys of `result["summary"]` can be non-strings
(they are the action *tuples*, via `dict(summary)`), so the object is
modelled with a precise shape and a key type distinguishing strings
from tuples. -/

/-- A Python dict key as it occurs in the result object: either a `str`
or a tuple of `str` (the keys of `dict(summary)`). -/
inductive PyKey where
  | str : String → PyKey
  | tup : List String → PyKey
deriving DecidableEq

/-- The `{"total": ..., "details": {...}}` object of one service or
module entry. -/
structure GroupEntry where
  total : Nat
  details : List (String × Nat)
deriving DecidableEq

/-- The `result` object built by `print_json_summary`. -/
structure JsonResult where
  total_changes : Nat
  summary : List (PyKey × Nat)
  by_service : List (String × GroupEntry)
  by_module : List (String × GroupEntry)
deriving DecidableEq

/-- The `details` dict of a by-service entry:
`service_details[s][action_key] = count` over the counter's pairs with
service `s`, keyed by `"_".join(actions)` (dict assignment, so a
colliding joined key would overwrite). -/
def json_service_details (changes : List ResourceChange) (s : String) :
    List (String × Nat) :=
  ((firstKeys (by_service_pairs changes)).filter (fun p => p.2 = s)).foldl
    (fun d p => pyDictSet d (pyJoin "_" p.1) (pyCount p (by_service_pairs changes)))
    []

/-- The `details` dict of a by-module entry, keyed by
`"_".join(actions)`. -/
def json_module_details (changes : List ResourceChange) (m : String) :
    List (String × Nat) :=
  (firstKeys (by_module_actions changes m)).foldl
    (fun d a => pyDictSet d (pyJoin "_" a) (pyCount a (by_module_actions changes m)))
    []

/-- The full `result` object of `print_json_summary`:
`total_changes`, `summary = dict(summary)` (action tuples as keys!),
`by_service` and `by_module` keyed by their first-insertion order. -/
def json_summary (changes : List ResourceChange) : JsonResult :=
  { total_changes := total_changes changes
    summary := (firstKeys (actionsList changes)).map
      (fun a => (PyKey.tup a, pyCount a (actionsList changes)))
    by_service := (firstKeys (serviceList changes)).map
      (fun s => (s, { total := service_total changes s
                      details := json_service_details changes s }))
    by_module := (firstKeys (moduleList changes)).map
      (fun m => (m, { total := module_total changes m
                      details := json_module_details changes m })) }

/-- Whether `json.dumps(result)` succeeds.  `json.dumps` (with default
`skipkeys=False`) raises `TypeError` on any dict key that is not
str/int/float/bool/None; every key in the result object is a string by
construction except the keys of `summary`, so serialization succeeds
exactly when all of those are strings. -/
def result_serializable (r : JsonResult) : Bool :=
  r.summary.all (fun e => match e.1 with | PyKey.str _ => true | PyKey.tup _ => false)

/-- Every character of `s` is ASCII.  Terraform action tokens are
ASCII words; the hypothesis separates them from the non-ASCII
decorative glyphs that the markdown renderer strips. -/
def allAsciiToken (s : String) : Bool :=
  s.toList.all (fun c => c.toNat < 128)

/-! ### Concrete plans used by witnesses and counterexamples -/

/-- A one-change plan: an `aws_instance` create at root. -/
def demo_one : List ResourceChange :=
  [{ type := "aws_instance", module_address := none, actions := ["create"] }]

/-- Two single-count changes whose action keys first occur in the order
update, then create. -/
def demo_tie : List ResourceChange :=
  [{ type := "aws_instance", module_address := none, actions := ["update"] },
   { type := "aws_instance", module_address := none, actions := ["create"] }]

/-- Two changes in module network (a create and an update) and one at
root (a delete). -/
def demo_mod : List ResourceChange :=
  [{ type := "aws_instance", module_address := some "network", actions := ["create"] },
   { type := "aws_vpc", module_address := some "network", actions := ["update"] },
   { type := "aws_s3_bucket", module_address := none, actions := ["delete"] }]

/-- A one-change plan whose resource type is exactly the platform
prefix, so the first post-prefix token is empty. -/
def demo_bare_aws : List ResourceChange :=
  [{ type := "aws_", module_address := none, actions := ["create"] }]

/-- A plan holding both replacement variants of the same bucket. -/
def demo_replace : List ResourceChange :=
  [{ type := "aws_s3_bucket", module_address := none,
     actions := ["create", "delete"] },
   { type := "aws_s3_bucket", module_address := none,
     actions := ["delete", "create"] }]

/-! ## Helper lemmas -/

/-- Unfolding equation of `splitOnChar` on a cons, once the recursive
result is known. -/
theorem splitOnChar_cons_of_eq (c x : Char) (xs : List Char)
    (h1 : List Char) (t1 : List (List Char))
    (h : splitOnChar c xs = h1 :: t1) :
    splitOnChar c (x :: xs) =
      if x = c then ([] :: h1 :: t1) else ((x :: h1) :: t1) := by
  simp only [splitOnChar, h]

/-- A Python `split` never returns an empty list of chunks. -/
theorem splitOnChar_ne_nil (c : Char) (l : List Char) :
    splitOnChar c l ≠ [] := by
  induction l with
  | nil => simp [splitOnChar]
  | cons x xs ih =>
    rcases h : splitOnChar c xs with _ | ⟨h1, t1⟩
    · exact absurd h ih
    · rw [splitOnChar_cons_of_eq c x xs h1 t1 h]
      by_cases hx : x = c <;> simp [hx]

/-- No chunk produced by `splitOnChar c` contains the separator `c`. -/
theorem not_mem_of_mem_splitOnChar (c : Char) (l : List Char) :
    ∀ chunk ∈ splitOnChar c l, ∀ x ∈ chunk, x ≠ c := by
  induction l with
  | nil =>
    intro chunk hc x hx
    simp [splitOnChar] at hc
    subst hc
    simp at hx
  | cons y ys ih =>
    intro chunk hc x hx
    rcases h : splitOnChar c ys with _ | ⟨h1, t1⟩
    · exact absurd h (splitOnChar_ne_nil c ys)
    · rw [splitOnChar_cons_of_eq c y ys h1 t1 h] at hc
      by_cases hy : y = c
      · rw [if_pos hy] at hc
        rcases List.mem_cons.mp hc with hc | hc
        · subst hc; simp at hx
        · exact ih chunk (h ▸ hc) x hx
      · rw [if_neg hy] at hc
        rcases List.mem_cons.mp hc with hc | hc
        · subst hc
          rcases List.mem_cons.mp hx with hx | hx
          · subst hx; exact hy
          · exact ih h1 (h ▸ List.mem_cons_self h1 t1) x hx
        · exact ih chunk (h ▸ List.mem_cons_of_mem h1 hc) x hx

/-- The first underscore token extracted by `extract_service_name`
never itself contains an underscore: multi-word keys of
`service_mappings` can never be returned by the lookup. -/
theorem first_token_no_underscore (t : String) :
    ((first_token t).toList.contains '_') = false := by
  unfold first_token pySplit
  rcases h : splitOnChar '_' (pyDrop 4 t).toList with _ | ⟨h1, t1⟩
  · exact absurd h (splitOnChar_ne_nil _ _)
  · have hmem : h1 ∈ splitOnChar '_' (pyDrop 4 t).toList := by
      rw [h]; exact List.mem_cons_self h1 t1
    have hno := not_mem_of_mem_splitOnChar '_' (pyDrop 4 t).toList h1 hmem
    simp only [h, List.map_cons, List.headD_cons]
    have hlist : (String.mk h1).toList = h1 := rfl
    rw [hlist, Bool.eq_false_iff]
    intro hcontains
    obtain ⟨b, hb, hbeq⟩ := List.contains_iff_exists_mem_beq.mp hcontains
    rw [beq_iff_eq] at hbeq
    exact hno b hb hbeq.symm


/-! ## Claim theorems -/

/-- C2.  The claim says a resource type whose post-prefix remainder
matches a multi-word alias of the mapping table gets that alias
(`aws_security_group` becomes `ec2`, `aws_step_functions` becomes
`stepfunctions`).  The code looks up only the first underscore token,
which never contains an underscore, so the five multi-word entries of
`service_mappings` are unreachable: the two quoted inputs yield
`security` and `step` even though the table holds the claimed aliases.
-/
theorem multiword_alias_entries_unreachable :
    extract_service_name "aws_security_group" = "security" ∧
    ("security_group", "ec2") ∈ service_mappings ∧
    extract_service_name "aws_step_functions" = "step" ∧
    ("step_functions", "stepfunctions") ∈ service_mappings ∧
    ("security" : String) ≠ "ec2" ∧
    ("step" : String) ≠ "stepfunctions" ∧
    (∀ t : String, ((first_token t).toList.contains '_') = false) := by
  refine ⟨by decide, by decide, by decide, by decide, by decide, by decide, ?_⟩
  exact first_token_no_underscore

/-- C6.  Service classification by the first post-prefix token: a type
without the platform prefix gives `other`; a prefixed type whose first
token is in the table gives the mapped alias; a prefixed type whose
first token is absent gives the token verbatim — in particular
`custom_widget` gives `other`, `aws_instance` gives `ec2` and
`aws_unknown_thing` gives `unknown`, which is not `other`. -/
theorem service_name_classification :
    (∀ t : String, pyStartsWith t "aws_" = false →
      extract_service_name t = "other") ∧
    (∀ t a, pyStartsWith t "aws_" = true →
      service_mappings.lookup (first_token t) = some a →
      extract_service_name t = a) ∧
    (∀ t, pyStartsWith t "aws_" = true →
      service_mappings.lookup (first_token t) = none →
      extract_service_name t = first_token t) ∧
    extract_service_name "custom_widget" = "other" ∧
    extract_service_name "aws_instance" = "ec2" ∧
    extract_service_name "aws_unknown_thing" = "unknown" ∧
    ("unknown" : String) ≠ "other" := by
  refine ⟨?_, ?_, ?_, by decide, by decide, by decide, by decide⟩
  · intro t h
    simp [extract_service_name, h]
  · intro t a h1 h2
    simp [extract_service_name, h1, h2]
  · intro t h1 h2
    simp [extract_service_name, h1, h2]

/-- C6, witness: the three general branches applied at the quoted
concrete resource types. -/
theorem service_name_classification_witness :
    extract_service_name "custom_widget" = "other" ∧
    extract_service_name "aws_instance" = "ec2" ∧
    extract_service_name "aws_unknown_thing" = "unknown" :=
  ⟨service_name_classification.1 "custom_widget" (by decide),
   service_name_classification.2.1 "aws_instance" "ec2" (by decide) (by decide),
   service_name_classification.2.2.1 "aws_unknown_thing" (by decide) (by decide)⟩

/-- C7.  The fixed label table of `format_actions` (labels carry the
decorative glyph prefix used throughout the report): create, update,
delete, no-op and read map to their words, and both two-token replace
variants render identically as replace while remaining distinct
grouping keys — a plan holding both variants keeps two separate counter
items. -/
theorem action_label_table :
    format_actions ["create"] = "🟢 create" ∧
    format_actions ["update"] = "🟡 update" ∧
    format_actions ["delete"] = "🔴 delete" ∧
    format_actions ["no-op"] = "⚪ no-op" ∧
    format_actions ["read"] = "📖 read" ∧
    format_actions ["create", "delete"] = "🔄 replace" ∧
    format_actions ["delete", "create"] = "🔄 replace" ∧
    (["create", "delete"] : List String) ≠ ["delete", "create"] ∧
    counter_items (actionsList demo_replace) =
      [(["create", "delete"], 1), (["delete", "create"], 1)] := by
  decide

/-- C10.  A resource type that starts with the platform prefix but has
an empty first post-prefix token (such as `aws_` itself) is classified
under the empty-string service name, which shows up verbatim as a
by-service key of the JSON output, and is never classified as `other`.
-/
theorem empty_first_token_service :
    ∀ t : String, pyStartsWith t "aws_" = true → first_token t = "" →
    extract_service_name t = "" ∧
    "" ∈ (json_summary demo_bare_aws).by_service.map Prod.fst ∧
    extract_service_name t ≠ "other" := by
  intro t h1 h2
  have hext : extract_service_name t = "" := by
    unfold extract_service_name
    rw [h1, h2]
    decide
  refine ⟨hext, by decide, ?_⟩
  rw [hext]
  decide

/-- C10, witness: the general statement applied at the resource type
`aws_` (and the plan holding it). -/
theorem empty_first_token_service_witness :
    extract_service_name "aws_" = "" ∧
    "" ∈ (json_summary demo_bare_aws).by_service.map Prod.fst ∧
    extract_service_name "aws_" ≠ "other" :=
  empty_first_token_service "aws_" (by decide) (by decide)

/-! ## Counting lemmas for the tallies -/

/-- Membership in `firstKeys` is membership in the underlying list. -/
theorem mem_firstKeys {α : Type} [DecidableEq α] (a : α) (l : List α) :
    a ∈ firstKeys l ↔ a ∈ l := by
  induction l with
  | nil => simp [firstKeys]
  | cons x t ih =>
    simp only [firstKeys, List.mem_cons, List.mem_filter]
    constructor
    · rintro (h | ⟨h1, _⟩)
      · exact Or.inl h
      · exact Or.inr (ih.mp h1)
    · rintro (h | h)
      · exact Or.inl h
      · by_cases hx : a = x
        · exact Or.inl hx
        · exact Or.inr ⟨ih.mpr h, by simpa using hx⟩

/-- The keys of a dict are distinct. -/
theorem nodup_firstKeys {α : Type} [DecidableEq α] (l : List α) :
    (firstKeys l).Nodup := by
  induction l with
  | nil => simp [firstKeys]
  | cons x t ih =>
    simp only [firstKeys]
    rw [List.nodup_cons]
    constructor
    · intro hmem
      rcases List.mem_filter.mp hmem with ⟨_, hne⟩
      simp at hne
    · exact ih.filter _

/-- Splitting one element out of a sum over a list with distinct
entries. -/
theorem sum_map_count_filter_ne {α : Type} [DecidableEq α] (d : List α)
    (hd : d.Nodup) (x : α) (g : α → Nat) (hx : x ∈ d) :
    (d.map g).sum = g x + ((d.filter (fun b => b ≠ x)).map g).sum := by
  induction d with
  | nil => simp at hx
  | cons y ys ih =>
    rw [List.nodup_cons] at hd
    rcases List.mem_cons.mp hx with h | h
    · subst h
      rw [List.filter_cons_of_neg (by simp)]
      have hfe : ys.filter (fun b => b ≠ x) = ys := by
        apply List.filter_eq_self.mpr
        intro b hb
        simp only [decide_eq_true_eq]
        intro hbx
        exact hd.1 (hbx ▸ hb)
      rw [hfe]
      simp
    · have hyx : y ≠ x := fun he => hd.1 (he ▸ h)
      rw [List.filter_cons_of_pos (by simpa using hyx)]
      simp only [List.map_cons, List.sum_cons]
      rw [ih hd.2 h]
      omega

/-- `pyCount` at its own head. -/
theorem pyCount_cons_self {α : Type} [DecidableEq α] (a : α) (l : List α) :
    pyCount a (a :: l) = pyCount a l + 1 := by
  unfold pyCount
  rw [List.filter_cons_of_pos (by simp)]
  rfl

/-- `pyCount` skips a different head. -/
theorem pyCount_cons_of_ne {α : Type} [DecidableEq α] {a b : α}
    (h : b ≠ a) (l : List α) : pyCount a (b :: l) = pyCount a l := by
  unfold pyCount
  rw [List.filter_cons_of_neg (by simpa using h)]

/-- `pyCount` of an absent key is zero. -/
theorem pyCount_eq_zero {α : Type} [DecidableEq α] {a : α} {l : List α}
    (h : a ∉ l) : pyCount a l = 0 := by
  unfold pyCount
  rw [List.length_eq_zero, List.filter_eq_nil_iff]
  intro b hb
  simp only [decide_eq_true_eq]
  intro hba
  exact h (hba ▸ hb)

/-- `pyCount` agrees with the multiset multiplicity. -/
theorem pyCount_eq_multiset_count {α : Type} [DecidableEq α] (a : α)
    (l : List α) : pyCount a l = Multiset.count a (l : Multiset α) := by
  induction l with
  | nil => rfl
  | cons x t ih =>
    have hco : ((x :: t : List α) : Multiset α) = x ::ₘ (t : Multiset α) := rfl
    by_cases h : x = a
    · subst h
      rw [pyCount_cons_self, hco, Multiset.count_cons_self]
      omega
    · rw [pyCount_cons_of_ne h, hco,
        Multiset.count_cons_of_ne (fun he => h he.symm)]
      exact ih

/-- `sum(counter.values())` is the number of elements fed to the
counter. -/
theorem sum_counts_firstKeys {α : Type} [DecidableEq α] (l : List α) :
    ((firstKeys l).map (fun a => pyCount a l)).sum = l.length := by
  induction l with
  | nil => simp [firstKeys]
  | cons x t ih =>
    simp only [firstKeys, List.map_cons, List.sum_cons]
    rw [pyCount_cons_self]
    have hcong : ((firstKeys t).filter (fun b => b ≠ x)).map
        (fun a => pyCount a (x :: t)) =
        ((firstKeys t).filter (fun b => b ≠ x)).map (fun a => pyCount a t) := by
      apply List.map_congr_left
      intro a ha
      rcases List.mem_filter.mp ha with ⟨_, hne⟩
      rw [pyCount_cons_of_ne (fun he => by simp [he] at hne)]
    rw [hcong, List.length_cons]
    by_cases hx : x ∈ t
    · have hxk : x ∈ firstKeys t := (mem_firstKeys x t).mpr hx
      have hsplit : ((firstKeys t).map (fun a => pyCount a t)).sum =
          pyCount x t +
            (((firstKeys t).filter (fun b => b ≠ x)).map
              (fun a => pyCount a t)).sum :=
        sum_map_count_filter_ne (firstKeys t) (nodup_firstKeys t)
          x (fun a => pyCount a t) hxk
      omega
    · have hc0 : pyCount x t = 0 := pyCount_eq_zero hx
      have hfe : (firstKeys t).filter (fun b => b ≠ x) = firstKeys t := by
        apply List.filter_eq_self.mpr
        intro b hb
        simp only [decide_eq_true_eq]
        intro hbx
        exact hx (hbx ▸ (mem_firstKeys b t).mp hb)
      rw [hfe]
      omega

/-- The Finset-indexed version of the same fact. -/
theorem list_toFinset_sum_pyCount {α : Type} [DecidableEq α] (l : List α) :
    (∑ a ∈ l.toFinset, pyCount a l) = l.length := by
  have h1 : (∑ a ∈ l.toFinset, pyCount a l)
      = ∑ a ∈ l.toFinset, Multiset.count a (l : Multiset α) :=
    Finset.sum_congr rfl (fun a _ => pyCount_eq_multiset_count a l)
  have h3 : (l : Multiset α).toFinset = l.toFinset := List.toFinset_coe l
  rw [h1, ← h3, Multiset.toFinset_sum_count_eq (l : Multiset α)]
  exact Multiset.coe_card l

/-- Selecting by image value: the filtered length is the count in the
mapped list. -/
theorem length_filter_eq_pyCount_map {α β : Type} [DecidableEq β]
    (f : α → β) (b : β) (l : List α) :
    (l.filter (fun a => f a = b)).length = pyCount b (l.map f) := by
  induction l with
  | nil => rfl
  | cons x t ih =>
    by_cases h : f x = b
    · rw [List.filter_cons_of_pos (by simpa using h), List.map_cons, h,
        pyCount_cons_self]
      simp only [List.length_cons, ih]
    · rw [List.filter_cons_of_neg (by simpa using h), List.map_cons,
        pyCount_cons_of_ne h]
      exact ih

/-- A service's total is the number of changes classified under it. -/
theorem service_total_eq_count (changes : List ResourceChange) (s : String) :
    service_total changes s = pyCount s (serviceList changes) := by
  have h := length_filter_eq_pyCount_map
    (fun p : List String × String => p.2) s (by_service_pairs changes)
  have h2 : (by_service_pairs changes).map
      (fun p : List String × String => p.2) = serviceList changes := by
    unfold by_service_pairs serviceList
    rw [List.map_map]
    rfl
  rw [h2] at h
  exact h

/-- A module's total is the number of changes it owns. -/
theorem module_total_eq_count (changes : List ResourceChange) (m : String) :
    module_total changes m = pyCount m (moduleList changes) := by
  unfold module_total by_module_actions
  rw [List.length_map]
  exact length_filter_eq_pyCount_map moduleOf m changes

/-- C3.  Conservation of counts: `sum(summary.values())` — the total
reported everywhere — is the number of changes in the plan, and summing
the per-action, per-service or per-module totals over the keys present
each gives that same number: every change is counted exactly once per
dimension. -/
theorem tally_sums_equal_total (changes : List ResourceChange) :
    total_changes changes = changes.length ∧
    (∑ a ∈ (actionsList changes).toFinset, pyCount a (actionsList changes))
      = changes.length ∧
    (∑ s ∈ (serviceList changes).toFinset, service_total changes s)
      = changes.length ∧
    (∑ m ∈ (moduleList changes).toFinset, module_total changes m)
      = changes.length := by
  refine ⟨?_, ?_, ?_, ?_⟩
  · unfold total_changes
    rw [sum_counts_firstKeys (actionsList changes)]
    simp [actionsList]
  · rw [list_toFinset_sum_pyCount (actionsList changes)]
    simp [actionsList]
  · calc (∑ s ∈ (serviceList changes).toFinset, service_total changes s)
        = ∑ s ∈ (serviceList changes).toFinset, pyCount s (serviceList changes) :=
          Finset.sum_congr rfl (fun s _ => service_total_eq_count changes s)
      _ = (serviceList changes).length := list_toFinset_sum_pyCount _
      _ = changes.length := by simp [serviceList]
  · calc (∑ m ∈ (moduleList changes).toFinset, module_total changes m)
        = ∑ m ∈ (moduleList changes).toFinset, pyCount m (moduleList changes) :=
          Finset.sum_congr rfl (fun m _ => module_total_eq_count changes m)
      _ = (moduleList changes).length := list_toFinset_sum_pyCount _
      _ = changes.length := by simp [moduleList]

/-- C1.  The claim says json mode always yields a complete well-formed
document with underscore-joined string keys in `summary`.  In the code,
`result["summary"] = dict(summary)` keeps the action *tuples* as dict
keys (only `by_service`/`by_module` join with underscore), and
`json.dumps` rejects tuple keys with a `TypeError`: serialization fails
for every non-empty plan. -/
theorem json_summary_serialization_fails :
    ∀ changes : List ResourceChange, changes ≠ [] →
    result_serializable (json_summary changes) = false := by
  intro changes h
  cases changes with
  | nil => exact absurd rfl h
  | cons c t =>
    simp [json_summary, result_serializable, actionsList, firstKeys]

/-- C1, witness: serialization fails already on a one-change plan. -/
theorem json_summary_serialization_fails_witness :
    result_serializable (json_summary demo_one) = false :=
  json_summary_serialization_fails demo_one (by decide)

/-- C8.  The empty plan: text and markdown modes print the banner, a
zero total and the no-changes message, with no section tables at all
(the output is exactly the listed lines, for either detail flag); json
mode produces the full zero-valued structure — `total_changes = 0` and
empty `summary`, `by_service` and `by_module` mappings — and its
serialization succeeds. -/
theorem empty_plan_reports :
    (∀ d : Bool, print_text_summary [] d =
      [bannerLine, "TERRAFORM PLAN SUMMARY", bannerLine,
       "Total changes: 0 resources", "", "✅ No changes detected!"]) ∧
    (∀ d : Bool, print_markdown_summary [] d =
      ["# Terraform Plan Summary", "",
       "**Total changes:** 0 resources", "", "✅ **No changes detected!**"]) ∧
    json_summary [] =
      { total_changes := 0, summary := [], by_service := [], by_module := [] } ∧
    result_serializable (json_summary []) = true := by
  refine ⟨?_, ?_, by decide, by decide⟩
  · intro d; cases d <;> decide
  · intro d; cases d <;> decide

/-- C9.  A change without a module address is tallied under `root`, and
the by-module keys are exactly the module addresses occurring in the
plan, with `root` standing in for absent ones; on the quoted example
(two changes in `network`, one at root) the totals are 2 and 1 and the
key list is exactly network, root. -/
theorem module_root_default_and_key_set (changes : List ResourceChange)
    (m : String) :
    (∀ rc : ResourceChange, rc.module_address = none → moduleOf rc = "root") ∧
    (m ∈ (json_summary changes).by_module.map Prod.fst ↔
      (∃ rc ∈ changes, rc.module_address = some m) ∨
      (m = "root" ∧ ∃ rc ∈ changes, rc.module_address = none)) ∧
    module_total demo_mod "network" = 2 ∧
    module_total demo_mod "root" = 1 ∧
    (json_summary demo_mod).by_module.map Prod.fst = ["network", "root"] := by
  refine ⟨?_, ?_, by decide, by decide, by decide⟩
  · intro rc h
    simp [moduleOf, h]
  · have hkeys : (json_summary changes).by_module.map Prod.fst
        = firstKeys (moduleList changes) := by
      simp only [json_summary, List.map_map]
      exact List.map_id' (firstKeys (moduleList changes))
    rw [hkeys, mem_firstKeys]
    unfold moduleList
    rw [List.mem_map]
    constructor
    · rintro ⟨rc, hrc, heq⟩
      cases hma : rc.module_address with
      | none =>
        right
        refine ⟨?_, rc, hrc, hma⟩
        rw [← heq]
        simp [moduleOf, hma]
      | some a =>
        left
        have ham : a = m := by
          rw [← heq]
          simp [moduleOf, hma]
        exact ⟨rc, hrc, by rw [hma, ham]⟩
    · rintro (⟨rc, hrc, hma⟩ | ⟨hm, rc, hrc, hma⟩)
      · exact ⟨rc, hrc, by simp [moduleOf, hma]⟩
      · exact ⟨rc, hrc, by simp [moduleOf, hma, hm]⟩

/-- C9, witness: the root default applied to the concrete rootless
change of the example plan. -/
theorem module_root_default_witness :
    moduleOf { type := "aws_s3_bucket", module_address := none,
               actions := ["delete"] } = "root" :=
  (module_root_default_and_key_set [] "root").1
    { type := "aws_s3_bucket", module_address := none,
      actions := ["delete"] } rfl

/-! ## Markdown label lemmas -/

/-- Outside the seven table keys, `format_actions` is the decorated
comma join. -/
theorem format_actions_fallback (a : List String)
    (h : a ∉ known_action_keys) :
    format_actions a = "❓ " ++ pyJoin ", " a := by
  simp only [known_action_keys, List.mem_cons, List.not_mem_nil, or_false,
    not_or] at h
  obtain ⟨h1, h2, h3, h4, h5, h6, h7⟩ := h
  unfold format_actions
  rw [if_neg h1, if_neg h2, if_neg h3, if_neg h4, if_neg h5, if_neg h6,
    if_neg h7]

/-- The character stream of a fallback label: the glyph, a space, then
the join. -/
theorem toList_fallback (a : List String) (h : a ∉ known_action_keys) :
    (format_actions a).toList = '❓' :: ' ' :: (pyJoin ", " a).toList := by
  rw [format_actions_fallback a h]
  rfl

/-- Every character of the comma join of ASCII tokens is ASCII. -/
theorem pyJoin_ascii (a : List String) (hascii : a.all allAsciiToken = true) :
    ∀ c ∈ (pyJoin ", " a).toList, c.toNat < 128 := by
  induction a with
  | nil => intro c hc; simp [pyJoin] at hc
  | cons x t ih =>
    rw [List.all_cons, Bool.and_eq_true] at hascii
    have hx : ∀ c ∈ x.toList, c.toNat < 128 := by
      intro c hc
      have hax := hascii.1
      unfold allAsciiToken at hax
      rw [List.all_eq_true] at hax
      have h2 := hax c hc
      simpa using h2
    cases t with
    | nil =>
      intro c hc
      simp only [pyJoin] at hc
      exact hx c hc
    | cons y ts =>
      intro c hc
      simp only [pyJoin] at hc
      have hdata : (x ++ ", " ++ pyJoin ", " (y :: ts)).toList
          = x.toList ++ (", ").toList ++ (pyJoin ", " (y :: ts)).toList := rfl
      rw [hdata] at hc
      rcases List.mem_append.mp hc with hc1 | hc2
      · rcases List.mem_append.mp hc1 with hcx | hcsep
        · exact hx c hcx
        · rcases List.mem_cons.mp hcsep with rfl | hcsep2
          · decide
          · rcases List.mem_cons.mp hcsep2 with rfl | hcnil
            · decide
            · simp at hcnil
      · exact ih hascii.2 c hc2

/-- An ASCII character is not a glyph (whose code point is at least
128). -/
theorem ne_of_ascii_big (c g : Char) (hc : c.toNat < 128)
    (hg : 128 ≤ g.toNat) : c ≠ g := by
  intro he
  rw [he] at hc
  omega

/-- `str.replace` of an absent two-character pattern is the identity.
-/
theorem removeAll_of_not_mem (p q : Char) (l : List Char)
    (h : ∀ x ∈ l, x ≠ p) : removeAll p q l = l := by
  induction l with
  | nil => rfl
  | cons x xs ih =>
    cases xs with
    | nil => rfl
    | cons y ys =>
      have hx : x ≠ p := h x (List.mem_cons_self x (y :: ys))
      have hrest : ∀ z ∈ y :: ys, z ≠ p :=
        fun z hz => h z (List.mem_cons_of_mem x hz)
      unfold removeAll
      rw [if_neg (fun hpq => hx hpq.1), ih hrest]

/-- `str.replace` removes a leading occurrence of the pattern. -/
theorem removeAll_cons_pair (p q : Char) (xs : List Char) :
    removeAll p q (p :: q :: xs) = removeAll p q xs := by
  conv_lhs => rw [removeAll]
  rw [if_pos ⟨rfl, rfl⟩]

/-- No character of a fallback label stream equals a colored glyph. -/
theorem chars_ne_glyph (a : List String) (hascii : a.all allAsciiToken = true)
    (g : Char) (hg : 128 ≤ g.toNat) (h1 : ('❓' : Char) ≠ g) :
    ∀ x ∈ '❓' :: ' ' :: (pyJoin ", " a).toList, x ≠ g := by
  intro x hx
  rcases List.mem_cons.mp hx with rfl | hx2
  · exact h1
  · rcases List.mem_cons.mp hx2 with rfl | hx3
    · exact ne_of_ascii_big ' ' g (by decide) hg
    · exact ne_of_ascii_big x g (pyJoin_ascii a hascii x hx3) hg

/-- The markdown overall-table cell of a fallback label with ASCII
tokens: the glyph replaces strip exactly the leading marker and keep
the joined label intact. -/
theorem md_overall_label_fallback (a : List String)
    (h : a ∉ known_action_keys) (hascii : a.all allAsciiToken = true) :
    md_overall_label a = pyJoin ", " a := by
  unfold md_overall_label
  rw [toList_fallback a h]
  rw [removeAll_of_not_mem '🟢' ' ' _
    (chars_ne_glyph a hascii '🟢' (by decide) (by decide))]
  rw [removeAll_of_not_mem '🟡' ' ' _
    (chars_ne_glyph a hascii '🟡' (by decide) (by decide))]
  rw [removeAll_of_not_mem '🔴' ' ' _
    (chars_ne_glyph a hascii '🔴' (by decide) (by decide))]
  rw [removeAll_of_not_mem '🔄' ' ' _
    (chars_ne_glyph a hascii '🔄' (by decide) (by decide))]
  rw [removeAll_of_not_mem '⚪' ' ' _
    (chars_ne_glyph a hascii '⚪' (by decide) (by decide))]
  rw [removeAll_of_not_mem '📖' ' ' _
    (chars_ne_glyph a hascii '📖' (by decide) (by decide))]
  rw [removeAll_cons_pair '❓' ' ' _]
  rw [removeAll_of_not_mem '❓' ' ' _
    (fun x hx =>
      ne_of_ascii_big x '❓' (pyJoin_ascii a hascii x hx) (by decide))]
  rfl

/-- Splitting the fallback character stream at spaces: the glyph alone,
then the space split of the join. -/
theorem splitOnChar_space_head (r : List Char) :
    splitOnChar ' ' ('❓' :: ' ' :: r) = ['❓'] :: splitOnChar ' ' r := by
  rcases h : splitOnChar ' ' r with _ | ⟨h1, t1⟩
  · exact absurd h (splitOnChar_ne_nil _ _)
  · have hs : splitOnChar ' ' (' ' :: r) = [] :: h1 :: t1 := by
      rw [splitOnChar_cons_of_eq ' ' ' ' r h1 t1 h, if_pos rfl]
    rw [splitOnChar_cons_of_eq ' ' '❓' (' ' :: r) [] (h1 :: t1) hs]
    rw [if_neg (by decide)]

/-- The markdown detail cell of a fallback label: `split(' ')[1]` never
raises, and returns only the part of the join before its first space.
-/
theorem md_detail_label_fallback (a : List String)
    (h : a ∉ known_action_keys) :
    md_detail_label a = (pySplit ' ' (pyJoin ", " a)).head? ∧
    md_detail_label a ≠ none := by
  have htl := toList_fallback a h
  unfold md_detail_label pySplit
  rw [htl, splitOnChar_space_head]
  rcases hs : splitOnChar ' ' (pyJoin ", " a).toList with _ | ⟨h1, t1⟩
  · exact absurd hs (splitOnChar_ne_nil _ _)
  · constructor
    · simp
    · simp

/-- C4, counterexample.  The claim says markdown table cells remove
only the leading decorative symbol and preserve the label text in
full.  For the unknown two-token key forget, me the glyph-stripped
label is `forget, me`, but the by-service/by-module detail cell shows
`split(' ')[1]`, which is just `forget,` — the label is truncated at
its first space. -/
theorem markdown_detail_cell_truncates :
    md_detail_label ["forget", "me"] = some "forget," ∧
    format_actions ["forget", "me"] = "❓ forget, me" ∧
    md_overall_label ["forget", "me"] = "forget, me" ∧
    some ("forget," : String) ≠ some ("forget, me" : String) := by
  decide

/-- C4 (amended).  For every action key outside the seven-entry label
table (with ASCII tokens, separating them from the decorative glyphs),
text and markdown formatting terminates without error and renders the
generic fallback label `❓` followed by the comma join; the markdown
overall-table cell keeps the whole join with only the leading glyph
removed; but the markdown detail cell keeps only the part of the label
before its first space (truncating multi-token keys), though the
indexing never fails. -/
theorem fallback_label_rendering (a : List String)
    (h : a ∉ known_action_keys) (hascii : a.all allAsciiToken = true) :
    format_actions a = "❓ " ++ pyJoin ", " a ∧
    md_overall_label a = pyJoin ", " a ∧
    md_detail_label a = (pySplit ' ' (pyJoin ", " a)).head? ∧
    md_detail_label a ≠ none :=
  ⟨format_actions_fallback a h, md_overall_label_fallback a h hascii,
   (md_detail_label_fallback a h).1, (md_detail_label_fallback a h).2⟩

/-- C4, witness: the amended statement at the two-token key of the
counterexample. -/
theorem fallback_label_rendering_witness :
    format_actions ["forget", "me"] = "❓ " ++ pyJoin ", " ["forget", "me"] ∧
    md_overall_label ["forget", "me"] = pyJoin ", " ["forget", "me"] ∧
    md_detail_label ["forget", "me"] =
      (pySplit ' ' (pyJoin ", " ["forget", "me"])).head? ∧
    md_detail_label ["forget", "me"] ≠ none :=
  fallback_label_rendering ["forget", "me"] (by decide) (by decide)

/-- C5, counterexample.  The claim says equal-count overall rows are
ordered by the natural/lexical order of the action key.  In `demo_tie`
both keys have count 1 and the `update` key was fed to the counter
first; `Counter.most_common` is a stable sort by count only, so the
`update` row precedes the lexically smaller `create` row in text and
markdown modes. -/
theorem overall_tie_order_counterexample :
    overall_rows demo_tie = [(["update"], 1), (["create"], 1)] ∧
    (["create"] : List String) < ["update"] := by
  constructor
  · decide
  · exact List.Lex.rel (String.lt_iff_toList_lt.mpr (by decide))

/-- C5 (amended).  In text and markdown modes: the overall-changes rows
are sorted by non-increasing count, and a row pair in counter
(first-occurrence) order stays in that order whenever the earlier count
is at least the later one — so equal counts keep first-occurrence
order, not lexical key order; the per-service and per-module sections
are sorted by ascending lexical name; each group's rows are sorted by
the action key's natural (lexicographic) order. -/
theorem rendering_order (changes : List ResourceChange) :
    List.Pairwise (fun x y : List String × Nat => y.2 ≤ x.2)
      (overall_rows changes) ∧
    (∀ x y : List String × Nat, y.2 ≤ x.2 →
      List.Sublist [x, y] (counter_items (actionsList changes)) →
      List.Sublist [x, y] (overall_rows changes)) ∧
    List.Pairwise (fun a b : String => a ≤ b) (text_service_keys changes) ∧
    List.Pairwise (fun a b : String => a ≤ b) (module_keys changes) ∧
    (∀ s : String, List.Pairwise
      (fun x y : List String × Nat => x.1 ≤ y.1)
      (service_detail_rows changes s)) ∧
    (∀ m : String, List.Pairwise
      (fun x y : List String × Nat => x.1 ≤ y.1)
      (module_detail_rows changes m)) := by
  refine ⟨?_, ?_, ?_, ?_, ?_, ?_⟩
  · exact List.sorted_insertionSort countGe (counter_items (actionsList changes))
  · intro x y hle hsub
    exact List.pair_sublist_insertionSort hle hsub
  · exact List.sorted_insertionSort (fun a b => a ≤ b)
      (firstKeys (serviceList changes))
  · exact List.sorted_insertionSort (fun a b => a ≤ b)
      (firstKeys (moduleList changes))
  · intro s
    exact (List.sorted_insertionSort rowRel _).imp
      (fun hr => hr.elim le_of_lt (fun hp => le_of_eq hp.1))
  · intro m
    exact (List.sorted_insertionSort rowRel _).imp
      (fun hr => hr.elim le_of_lt (fun hp => le_of_eq hp.1))

/-- C5, witness: stability applied to the tied rows of `demo_tie`. -/
theorem rendering_order_witness :
    List.Sublist [(["update"], 1), (["create"], 1)]
      (overall_rows demo_tie) := by
  have h : counter_items (actionsList demo_tie)
      = [(["update"], 1), (["create"], 1)] := by decide
  refine (rendering_order demo_tie).2.1 (["update"], 1) (["create"], 1)
    (by decide) ?_
  rw [h]
